import Mathlib

/-!
Shallow embedding of the AUDCHF22 polling server (`src/server.js` and the
unnamed variants), covering the rate limiter, the upstream fetch wrapper,
the poll scheduler, the cache/quote derivation, the SSE fan-out and the
timeframe-switch handler.  Timestamps are milliseconds as `Nat`; numeric
OHLC fields are modelled as `Int` (the JS code only compares and selects
them, so any linear order is faithful).
-/

namespace AudChf

/-- Rolling-window length used by the rate limiter (60 000 ms). -/
def WINDOW_MS : Nat := 60000

/-- Per-minute self-imposed call budget (`state.apiCalls.length < 7`). -/
def CALL_BUDGET : Nat := 7

/-- `canCallAPI` (src/server.js lines 29-35, part_000 lines 30-34):
purges timestamps older than 60 s from the window, returns the purged
window and whether the budget admits another call. -/
def canCallAPI (calls : List Nat) (now : Nat) : List Nat × Bool :=
  let purged := calls.filter (fun t => decide (now - t < WINDOW_MS))
  (purged, decide (purged.length < CALL_BUDGET))

/-- `trackCall` (part_000 lines 36-38): appends the current timestamp. -/
def trackCall (calls : List Nat) (now : Nat) : List Nat :=
  calls ++ [now]

/-- One admit/record attempt as `safeFetch` performs it: `canCallAPI`
mutates the window by purging; on admission `trackCall` appends `now`.
Returns the new window and whether the call was admitted. -/
def rateStep (calls : List Nat) (now : Nat) : List Nat × Bool :=
  let p := canCallAPI calls now
  if p.2 then (trackCall p.1 now, true) else (p.1, false)

/-- Run a sequence of attempt times through the rate limiter, starting
from window `s` and admitted-call history `h`; returns the final window
and the list of all timestamps that were ever admitted and recorded. -/
def rateRunAux : List Nat → List Nat → List Nat → List Nat × List Nat
  | s, h, [] => (s, h)
  | s, h, n :: ns =>
    let p := rateStep s n
    rateRunAux p.1 (if p.2 then h ++ [n] else h) ns

/-- Run a sequence of attempt times from the initial empty state
(`state.apiCalls = []`). -/
def rateRun (ts : List Nat) : List Nat × List Nat :=
  rateRunAux [] [] ts

/-- Membership of timestamp `t` in the trailing 60 s window ending at
query time `q`. -/
def inWin (q t : Nat) : Bool :=
  decide (t ≤ q) && decide (q - t < WINDOW_MS)

/-- Number of recorded timestamps of `h` inside the trailing window
ending at `q`. -/
def wcount (h : List Nat) (q : Nat) : Nat :=
  h.countP (inWin q)

/-! ## Upstream fetch -/

/-- What the network hands back for one request, before `safeFetch`
interprets it. -/
inductive NetResponse (α : Type) where
  | transportFail (msg : String)
  | errorStatus (msg : String)
  | ok (data : α)
deriving DecidableEq

/-- Outcome of `safeFetch`: the JS function returns `null` in the first
three cases and the parsed body in the last. -/
inductive FetchResult (α : Type) where
  | denied
  | upstreamRejected (msg : String)
  | transportFail (msg : String)
  | ok (data : α)
deriving DecidableEq

/-- `safeFetch` (part_000 lines 40-58): consult `canCallAPI`; if denied
return `null` without a network call; otherwise `trackCall`, perform the
request, and map transport errors and `data.status === "error"` bodies
to `null`.  Returns the interpreted outcome and the new call window. -/
def safeFetch {α : Type} (calls : List Nat) (now : Nat)
    (resp : NetResponse α) : FetchResult α × List Nat :=
  let p := canCallAPI calls now
  if p.2 then
    let calls2 := trackCall p.1 now
    match resp with
    | NetResponse.transportFail m => (FetchResult.transportFail m, calls2)
    | NetResponse.errorStatus m => (FetchResult.upstreamRejected m, calls2)
    | NetResponse.ok d => (FetchResult.ok d, calls2)
  else (FetchResult.denied, p.1)

/-! ## Data model -/

/-- One OHLC bar as parsed from the upstream `values` array (`+v.high`
etc.); only the fields the core reads are modelled. -/
structure Bar where
  high : Int
  low : Int
  openP : Int
deriving DecidableEq

/-- Body of a `time_series` response; `values` is `none` when the field
is absent (the JS guard `data && data.values`).  An empty array is a
present-but-empty list. -/
structure CandleData where
  values : Option (List Bar)
deriving DecidableEq

/-- Body of a `price` response; `price` is `none` when absent (the JS
guard `data && data.price`). -/
structure PriceData where
  price : Option String
deriving DecidableEq

/-- The derived quote `{high, low, open}` (part_000 lines 89-93). -/
structure Quote where
  high : Int
  low : Int
  openQ : Int
deriving DecidableEq

/-- The shared mutable server state (part_000 lines 19-28 and 60).
Caches keyed by interval are total functions from the interval string;
`lastCandles` reads in the source use `state.lastCandles[tf] || 0`, so a
missing entry is the default `0`. -/
structure ServerState where
  price : Option PriceData
  quote : Option Quote
  candles : String → Option CandleData
  lastPrice : Nat
  lastQuote : Nat
  lastCandles : String → Nat
  lastUpdate : Nat
  apiCalls : List Nat
  activeTimeframe : String

/-- Initial state: empty caches, `activeTimeframe = "1min"`. -/
def initState : ServerState where
  price := none
  quote := none
  candles := fun _ => none
  lastPrice := 0
  lastQuote := 0
  lastCandles := fun _ => 0
  lastUpdate := 0
  apiCalls := []
  activeTimeframe := "1min"

/-- An event handed to `broadcast` (fan-out payloads). -/
inductive Event where
  | price (data : PriceData) (ts : Nat)
  | quote (q : Quote) (ts : Nat)
  | candles (interval : String) (data : CandleData) (ts : Nat)
deriving DecidableEq

/-- `Math.max(...)` over a spread list; only ever applied to non-empty
lists in the source (guarded by `latest`). -/
def listMax : List Int → Int
  | [] => 0
  | x :: xs => xs.foldl max x

/-- `Math.min(...)` over a spread list; only ever applied to non-empty
lists in the source. -/
def listMin : List Int → Int
  | [] => 0
  | x :: xs => xs.foldl min x

/-- `pollPrice` (part_000 lines 63-74): fetch, and on a body with a
truthy `price` field update the cache and broadcast; otherwise leave the
cache untouched.  The network outcome is an explicit argument.  Returns
the new state and the list of broadcast events in order. -/
def pollPrice (st : ServerState) (now : Nat)
    (resp : NetResponse PriceData) : ServerState × List Event :=
  let r := safeFetch st.apiCalls now resp
  let st1 := { st with apiCalls := r.2 }
  match r.1 with
  | FetchResult.ok data =>
    match data.price with
    | some _ =>
      ({ st1 with price := some data, lastPrice := now, lastUpdate := now },
       [Event.price data now])
    | none => (st1, [])
  | _ => (st1, [])

/-- `pollCandles` (part_000 lines 76-99): fetch; on a body with a
`values` field, store it under `interval` and stamp it; when the list is
non-empty, derive the quote from the first 60 bars (newest-first slice):
max of `high`, min of `low`, `open` of the last slice element — and
broadcast the quote before the candles event.  Note the quote is
recomputed whatever `interval` is: the source has no active-timeframe
check here. -/
def pollCandles (st : ServerState) (now : Nat) (interval : String)
    (resp : NetResponse CandleData) : ServerState × List Event :=
  let r := safeFetch st.apiCalls now resp
  let st1 := { st with apiCalls := r.2 }
  match r.1 with
  | FetchResult.ok data =>
    match data.values with
    | some vals =>
      let st2 := { st1 with
        candles := fun k => if k = interval then some data else st1.candles k,
        lastCandles := fun k => if k = interval then now else st1.lastCandles k,
        lastUpdate := now }
      match vals with
      | [] => (st2, [Event.candles interval data now])
      | v :: vs =>
        let dayCandles := (v :: vs).take 60
        let q : Quote :=
          { high := listMax (dayCandles.map Bar.high)
            low := listMin (dayCandles.map Bar.low)
            openQ := (dayCandles.getLastD v).openP }
        ({ st2 with quote := some q, lastQuote := now },
         [Event.quote q now, Event.candles interval data now])
    | none => (st1, [])
  | _ => (st1, [])

/-! ## Scheduler -/

/-- Which upstream poll a tick issues. -/
inductive PollKind where
  | price
  | candles (interval : String)
deriving DecidableEq, BEq

/-- The body of the scheduler's interval callback (part_000 lines
118-125): the counter is incremented first, so the n-th firing sees
`tick = n` (n ≥ 1); even values poll candles for the active timeframe,
odd values poll price. -/
def tickAction (tick : Nat) (activeTimeframe : String) : PollKind :=
  if tick % 2 = 0 then PollKind.candles activeTimeframe else PollKind.price

/-! ## Fan-out -/

/-- A connected SSE client handle; `writeOk` says whether a write to it
succeeds or throws. -/
structure Client where
  id : Nat
  writeOk : Bool
deriving DecidableEq

/-- `broadcast` (part_000 lines 101-106): attempt a write to every
client; a client whose write throws is deleted from the set.  Returns
the surviving client set and the clients that received the payload. -/
def broadcast : List Client → List Client × List Client
  | [] => ([], [])
  | c :: cs =>
    let r := broadcast cs
    if c.writeOk then (c :: r.1, c :: r.2) else (r.1, r.2)

/-- The per-client heartbeat callback (part_000 lines 144-146): write
`": hb"`; on failure only `clearInterval(hb)` runs — the client set is
not touched in either branch.  Arguments: current client set, the
heartbeat's own client, whether its timer is still active; returns the
client set and the timer's new activity. -/
def hbTick (clients : List Client) (c : Client) (hbActive : Bool) :
    List Client × Bool :=
  if c.writeOk then (clients, hbActive) else (clients, false)

/-- Bootstrap messages sent to a freshly connected subscriber
(part_000 lines 140-142): current price, quote and active-timeframe
candles, each only if present, in that order. -/
def bootstrapMessages (st : ServerState) : List Event :=
  (match st.price with
   | some p => [Event.price p st.lastPrice]
   | none => []) ++
  (match st.quote with
   | some q => [Event.quote q st.lastQuote]
   | none => []) ++
  (match st.candles st.activeTimeframe with
   | some c => [Event.candles st.activeTimeframe c
                  (st.lastCandles st.activeTimeframe)]
   | none => [])

/-- Everything a subscriber connected at state `st` receives: the
bootstrap snapshot followed by whatever events are broadcast later. -/
def subscriberStream (st : ServerState) (laterEvents : List Event) :
    List Event :=
  bootstrapMessages st ++ laterEvents

/-! ## Timeframe switch handler -/

/-- `GET /api/candles` (part_000 lines 157-166): read the `interval`
query parameter (default `"1min"`); if it differs from the active
timeframe, switch the active timeframe, and if the cached entry is
missing or older than 15 s issue one immediate `pollCandles`.  Returns
the new state, the broadcast events, and how many polls were issued. -/
def candlesGet (st : ServerState) (now : Nat) (tfQuery : Option String)
    (resp : NetResponse CandleData) : ServerState × List Event × Nat :=
  let tf := tfQuery.getD "1min"
  if tf = st.activeTimeframe then (st, [], 0)
  else
    let st1 := { st with activeTimeframe := tf }
    if (st1.candles tf).isNone || decide (now - st1.lastCandles tf > 15000)
    then
      let r := pollCandles st1 now tf resp
      (r.1, r.2, 1)
    else (st1, [], 0)

/-! ## Rate-limiter invariant (C1) -/

lemma filter_win_mono (h : List Nat) (n m : Nat) (hnm : n ≤ m) :
    (h.filter (fun t => decide (n - t < WINDOW_MS))).filter
      (fun t => decide (m - t < WINDOW_MS)) =
    h.filter (fun t => decide (m - t < WINDOW_MS)) := by
  rw [List.filter_filter]
  apply List.filter_congr
  intro t _
  by_cases hm : m - t < WINDOW_MS
  · have hn : n - t < WINDOW_MS := by omega
    simp [hm, hn]
  · simp [hm]

lemma wcount_append_one (h : List Nat) (m q : Nat) :
    wcount (h ++ [m]) q = wcount h q + (if inWin q m then 1 else 0) := by
  simp [wcount, List.countP_append, List.countP_cons]

lemma wcount_mono_time (h : List Nat) (n m q : Nat)
    (hb : ∀ t ∈ h, t ≤ n) (hnm : n ≤ m) (hm : inWin q m = true) :
    wcount h q ≤ wcount h m := by
  apply List.countP_mono_left
  intro t ht hq
  have h1 : m ≤ q ∧ q - m < WINDOW_MS := by
    simpa [inWin] using hm
  have h2 : t ≤ q ∧ q - t < WINDOW_MS := by
    simpa [inWin] using hq
  have h3 : t ≤ n := hb t ht
  simp only [inWin, Bool.and_eq_true, decide_eq_true_eq]
  omega

lemma filter_length_eq_wcount (h : List Nat) (n m : Nat)
    (hb : ∀ t ∈ h, t ≤ n) (hnm : n ≤ m) :
    (h.filter (fun t => decide (m - t < WINDOW_MS))).length = wcount h m := by
  rw [wcount, List.countP_eq_length_filter]
  congr 1
  apply List.filter_congr
  intro t ht
  have htm : t ≤ m := le_trans (hb t ht) hnm
  simp [inWin, htm]

lemma rateRun_inv (ts : List Nat) :
    ∀ s h n, List.Chain' (· ≤ ·) (n :: ts) →
    (∀ t ∈ h, t ≤ n) →
    s = h.filter (fun t => decide (n - t < WINDOW_MS)) →
    (∀ q, wcount h q ≤ CALL_BUDGET) →
    ∀ q, wcount (rateRunAux s h ts).2 q ≤ CALL_BUDGET := by
  induction ts with
  | nil =>
    intro s h n _ _ _ hcnt q
    exact hcnt q
  | cons m ms ih =>
    intro s h n hch hb hs hcnt q
    have hnm : n ≤ m := (List.chain'_cons.mp hch).1
    have hch2 : List.Chain' (· ≤ ·) (m :: ms) := (List.chain'_cons.mp hch).2
    have hpurged : s.filter (fun t => decide (m - t < WINDOW_MS)) =
        h.filter (fun t => decide (m - t < WINDOW_MS)) := by
      rw [hs]; exact filter_win_mono h n m hnm
    have hlen : (s.filter (fun t => decide (m - t < WINDOW_MS))).length =
        wcount h m := by
      rw [hpurged]; exact filter_length_eq_wcount h n m hb hnm
    cases hB : decide
        ((s.filter (fun t => decide (m - t < WINDOW_MS))).length < CALL_BUDGET)
    · simp only [rateRunAux, rateStep, canCallAPI, trackCall, hB,
        Bool.false_eq_true, if_false]
      apply ih _ h m hch2
      · intro t ht; exact le_trans (hb t ht) hnm
      · rw [hpurged]
      · exact hcnt
    · have hadm : (s.filter (fun t => decide (m - t < WINDOW_MS))).length <
          CALL_BUDGET := of_decide_eq_true hB
      simp only [rateRunAux, rateStep, canCallAPI, trackCall, hB, if_true]
      apply ih _ (h ++ [m]) m hch2
      · intro t ht
        rcases List.mem_append.mp ht with h1 | h1
        · exact le_trans (hb t h1) hnm
        · simp at h1; omega
      · rw [hpurged, List.filter_append]
        simp [WINDOW_MS]
      · intro q'
        rw [wcount_append_one]
        by_cases hin : inWin q' m
        · have hle : wcount h q' ≤ wcount h m :=
            wcount_mono_time h n m q' hb hnm hin
          have hlt : wcount h m < CALL_BUDGET := by rw [← hlen]; exact hadm
          simp only [hin, if_true]
          omega
        · simp only [hin, if_false]
          exact hcnt q'

/-- C1: for every sequence of admit/record pairs (`canCallAPI` returning
true followed by `trackCall` appending the current timestamp), issued at
non-decreasing times, the number of recorded call timestamps lying in
any trailing 60 000 ms window never exceeds the configured budget of 7. -/
theorem rate_limiter_window_bound (ts : List Nat)
    (hts : List.Chain' (· ≤ ·) ts) (q : Nat) :
    wcount (rateRun ts).2 q ≤ CALL_BUDGET := by
  have hch : List.Chain' (· ≤ ·) (0 :: ts) := by
    cases ts with
    | nil => simp
    | cons a l => exact List.chain'_cons.mpr ⟨Nat.zero_le a, hts⟩
  exact rateRun_inv ts [] [] 0 hch (by simp) (by simp) (by simp [wcount]) q

/-- Witness for C1: eight admission attempts inside one minute; the
recorded-call count in the window ending at the last attempt stays
within budget. -/
theorem rate_limiter_window_bound_witness :
    wcount (rateRun [0, 9000, 17000, 25000, 34000, 42000, 51000, 59500]).2
      59500 ≤ CALL_BUDGET :=
  rate_limiter_window_bound
    [0, 9000, 17000, 25000, 34000, 42000, 51000, 59500]
    (by simp [List.chain'_cons]) 59500

/-! ## Quote derivation (C2) -/

lemma foldl_max_mem : ∀ (xs : List Int) (a : Int), xs.foldl max a ∈ a :: xs := by
  intro xs
  induction xs with
  | nil => intro a; simp
  | cons b bs ih =>
    intro a
    simp only [List.foldl_cons]
    rcases List.mem_cons.mp (ih (max a b)) with h1 | h1
    · rcases max_choice a b with h2 | h2
      · rw [h1, h2]; exact List.mem_cons_self _ _
      · rw [h1, h2]; exact List.mem_cons_of_mem _ (List.mem_cons_self _ _)
    · exact List.mem_cons_of_mem _ (List.mem_cons_of_mem _ h1)

lemma le_foldl_max : ∀ (xs : List Int) (a x : Int),
    x ∈ a :: xs → x ≤ xs.foldl max a := by
  intro xs
  induction xs with
  | nil =>
    intro a x hx
    simp at hx
    simp [hx]
  | cons b bs ih =>
    intro a x hx
    simp only [List.foldl_cons]
    have hstep : max a b ≤ bs.foldl max (max a b) :=
      ih _ _ (List.mem_cons_self _ _)
    rcases List.mem_cons.mp hx with h1 | h1
    · subst h1; exact le_trans (le_max_left _ b) hstep
    · rcases List.mem_cons.mp h1 with h2 | h2
      · subst h2; exact le_trans (le_max_right a _) hstep
      · exact ih _ _ (List.mem_cons_of_mem _ h2)

lemma foldl_min_mem : ∀ (xs : List Int) (a : Int), xs.foldl min a ∈ a :: xs := by
  intro xs
  induction xs with
  | nil => intro a; simp
  | cons b bs ih =>
    intro a
    simp only [List.foldl_cons]
    rcases List.mem_cons.mp (ih (min a b)) with h1 | h1
    · rcases min_choice a b with h2 | h2
      · rw [h1, h2]; exact List.mem_cons_self _ _
      · rw [h1, h2]; exact List.mem_cons_of_mem _ (List.mem_cons_self _ _)
    · exact List.mem_cons_of_mem _ (List.mem_cons_of_mem _ h1)

lemma foldl_min_le : ∀ (xs : List Int) (a x : Int),
    x ∈ a :: xs → xs.foldl min a ≤ x := by
  intro xs
  induction xs with
  | nil =>
    intro a x hx
    simp at hx
    simp [hx]
  | cons b bs ih =>
    intro a x hx
    simp only [List.foldl_cons]
    have hstep : bs.foldl min (min a b) ≤ min a b :=
      ih _ _ (List.mem_cons_self _ _)
    rcases List.mem_cons.mp hx with h1 | h1
    · subst h1; exact le_trans hstep (min_le_left _ b)
    · rcases List.mem_cons.mp h1 with h2 | h2
      · subst h2; exact le_trans hstep (min_le_right a _)
      · exact ih _ _ (List.mem_cons_of_mem _ h2)

lemma getLast?_map_openP : ∀ (x : Bar) (xs : List Bar) (d : Bar),
    ((x :: xs).map Bar.openP).getLast? =
      some (((x :: xs).getLastD d).openP) := by
  intro x xs
  induction xs generalizing x with
  | nil => intro d; simp
  | cons y ys ih =>
    intro d
    rw [List.map_cons, List.map_cons, List.getLast?_cons_cons,
      ← List.map_cons, List.getLastD_cons]
    exact ih y x

/-- C2: a successful candle poll of the active timeframe with a
non-empty newest-first bar list derives the quote with `high` the
maximum of the `high` fields over the 60 most recent bars (all bars if
fewer), `low` the minimum of `low` over them, and `open` the `open`
field of the last element of that newest-first slice. -/
theorem quote_derived_from_bars (st : ServerState) (now : Nat)
    (interval : String) (v : Bar) (vs : List Bar)
    (_hact : interval = st.activeTimeframe)
    (hadm : (canCallAPI st.apiCalls now).2 = true) :
    ∃ q : Quote,
      (pollCandles st now interval
          (NetResponse.ok ⟨some (v :: vs)⟩)).1.quote = some q ∧
      q.high ∈ ((v :: vs).take 60).map Bar.high ∧
      (∀ x ∈ ((v :: vs).take 60).map Bar.high, x ≤ q.high) ∧
      q.low ∈ ((v :: vs).take 60).map Bar.low ∧
      (∀ x ∈ ((v :: vs).take 60).map Bar.low, q.low ≤ x) ∧
      (((v :: vs).take 60).map Bar.openP).getLast? = some q.openQ := by
  have htake : (v :: vs).take 60 = v :: vs.take 59 := rfl
  refine ⟨⟨listMax (((v :: vs).take 60).map Bar.high),
           listMin (((v :: vs).take 60).map Bar.low),
           (((v :: vs).take 60).getLastD v).openP⟩, ?_, ?_, ?_, ?_, ?_, ?_⟩
  · simp [pollCandles, safeFetch, hadm]
  · rw [htake, List.map_cons]
    exact foldl_max_mem _ _
  · intro x hx
    rw [htake, List.map_cons] at hx
    exact le_foldl_max _ _ _ hx
  · rw [htake, List.map_cons]
    exact foldl_min_mem _ _
  · intro x hx
    rw [htake, List.map_cons] at hx
    exact foldl_min_le _ _ _ hx
  · rw [htake]
    exact getLast?_map_openP v (vs.take 59) v

/-- Witness for C2: two bars; the derived quote is
`{high := 7, low := 1, open := 4}`. -/
theorem quote_derived_from_bars_witness :
    ∃ q : Quote,
      (pollCandles initState 0 "1min"
          (NetResponse.ok ⟨some [⟨5, 1, 3⟩, ⟨7, 2, 4⟩]⟩)).1.quote = some q ∧
      q.high ∈ (([⟨5, 1, 3⟩, ⟨7, 2, 4⟩] : List Bar).take 60).map Bar.high ∧
      (∀ x ∈ (([⟨5, 1, 3⟩, ⟨7, 2, 4⟩] : List Bar).take 60).map Bar.high,
        x ≤ q.high) ∧
      q.low ∈ (([⟨5, 1, 3⟩, ⟨7, 2, 4⟩] : List Bar).take 60).map Bar.low ∧
      (∀ x ∈ (([⟨5, 1, 3⟩, ⟨7, 2, 4⟩] : List Bar).take 60).map Bar.low,
        q.low ≤ x) ∧
      ((([⟨5, 1, 3⟩, ⟨7, 2, 4⟩] : List Bar).take 60).map Bar.openP).getLast?
        = some q.openQ :=
  quote_derived_from_bars initState 0 "1min" ⟨5, 1, 3⟩ [⟨7, 2, 4⟩]
    rfl (by decide)

/-! ## Background polls and the quote (C3) -/

/-- C3 counterexample: with active timeframe `"1min"`, a candle poll for
the background timeframe `"5min"` returning one bar sets the derived
quote and broadcasts a quote event — `pollCandles` has no
active-timeframe check before the quote derivation. -/
theorem background_poll_quote_cex :
    initState.activeTimeframe = "1min" ∧
    initState.quote = none ∧
    (pollCandles initState 0 "5min"
        (NetResponse.ok ⟨some [⟨5, 1, 3⟩]⟩)).1.quote = some ⟨5, 1, 3⟩ ∧
    Event.quote ⟨5, 1, 3⟩ 0 ∈
      (pollCandles initState 0 "5min"
        (NetResponse.ok ⟨some [⟨5, 1, 3⟩]⟩)).2 := by
  refine ⟨rfl, rfl, ?_, ?_⟩ <;> decide

/-- C3 amended: a successful candle poll for a background (non-active)
timeframe updates that timeframe's cache entry and last-updated
timestamp and leaves every other timeframe's entry and timestamp
unchanged, but — when the bar list is non-empty — it also recomputes the
derived quote from the polled bars and republishes it. -/
theorem background_poll_updates_entry_and_quote (st : ServerState)
    (now : Nat) (interval : String) (v : Bar) (vs : List Bar)
    (_hbg : interval ≠ st.activeTimeframe)
    (hadm : (canCallAPI st.apiCalls now).2 = true) :
    ((pollCandles st now interval
        (NetResponse.ok ⟨some (v :: vs)⟩)).1.candles interval
      = some ⟨some (v :: vs)⟩) ∧
    ((pollCandles st now interval
        (NetResponse.ok ⟨some (v :: vs)⟩)).1.lastCandles interval = now) ∧
    (∀ k, k ≠ interval →
      (pollCandles st now interval
          (NetResponse.ok ⟨some (v :: vs)⟩)).1.candles k = st.candles k ∧
      (pollCandles st now interval
          (NetResponse.ok ⟨some (v :: vs)⟩)).1.lastCandles k
        = st.lastCandles k) ∧
    (∃ q, (pollCandles st now interval
          (NetResponse.ok ⟨some (v :: vs)⟩)).1.quote = some q ∧
      Event.quote q now ∈
        (pollCandles st now interval
          (NetResponse.ok ⟨some (v :: vs)⟩)).2) := by
  refine ⟨?_, ?_, ?_, ?_⟩
  · simp [pollCandles, safeFetch, hadm]
  · simp [pollCandles, safeFetch, hadm]
  · intro k hk
    constructor <;> simp [pollCandles, safeFetch, hadm, hk]
  · refine ⟨⟨listMax (((v :: vs).take 60).map Bar.high),
            listMin (((v :: vs).take 60).map Bar.low),
            (((v :: vs).take 60).getLastD v).openP⟩, ?_, ?_⟩ <;>
      simp [pollCandles, safeFetch, hadm]

/-- Witness for the amended C3: concrete background poll for `"5min"`
with active timeframe `"1min"`. -/
theorem background_poll_updates_entry_and_quote_witness :
    ((pollCandles initState 0 "5min"
        (NetResponse.ok ⟨some [⟨5, 1, 3⟩]⟩)).1.candles "5min"
      = some ⟨some [⟨5, 1, 3⟩]⟩) ∧
    ((pollCandles initState 0 "5min"
        (NetResponse.ok ⟨some [⟨5, 1, 3⟩]⟩)).1.lastCandles "5min" = 0) ∧
    (∀ k, k ≠ "5min" →
      (pollCandles initState 0 "5min"
          (NetResponse.ok ⟨some [⟨5, 1, 3⟩]⟩)).1.candles k
        = initState.candles k ∧
      (pollCandles initState 0 "5min"
          (NetResponse.ok ⟨some [⟨5, 1, 3⟩]⟩)).1.lastCandles k
        = initState.lastCandles k) ∧
    (∃ q, (pollCandles initState 0 "5min"
          (NetResponse.ok ⟨some [⟨5, 1, 3⟩]⟩)).1.quote = some q ∧
      Event.quote q 0 ∈
        (pollCandles initState 0 "5min"
          (NetResponse.ok ⟨some [⟨5, 1, 3⟩]⟩)).2) :=
  background_poll_updates_entry_and_quote initState 0 "5min" ⟨5, 1, 3⟩ []
    (by decide) (by decide)

/-! ## Scheduler tick alternation (C4, C5) -/

/-- C4: odd-numbered ticks issue the price poll and even-numbered ticks
issue the candle poll, which always (hence in particular for most even
ticks) targets the active timeframe. -/
theorem tick_alternation (n : Nat) (tf : String) :
    (n % 2 = 1 → tickAction n tf = PollKind.price) ∧
    (n % 2 = 0 → tickAction n tf = PollKind.candles tf) := by
  constructor
  · intro h; simp [tickAction, h]
  · intro h; simp [tickAction, h]

/-- Witness for C4: tick 1 polls price, tick 2 polls the active
timeframe's candles. -/
theorem tick_alternation_witness :
    tickAction 1 "1min" = PollKind.price ∧
    tickAction 2 "1min" = PollKind.candles "1min" :=
  ⟨(tick_alternation 1 "1min").1 rfl, (tick_alternation 2 "1min").2 rfl⟩

/-- C5 counterexample: across the first 60 ticks with active timeframe
`"1min"` every issued poll is either the price poll or a candle poll for
the active timeframe itself; no tick — in particular no 6th tick —
targets a background timeframe, so no round-robin background refresh
exists in the loop. -/
theorem no_background_rotation_cex :
    ((List.range 60).map (fun n => tickAction (n + 1) "1min")).all
      (fun a => a == PollKind.price || a == PollKind.candles "1min")
      = true := by
  decide

/-- C5 amended: the scheduler's loop never targets a background
timeframe: every tick issues either a price poll or a candle poll for
the currently active timeframe.  Background timeframes only receive data
through the out-of-band poll issued by a timeframe switch. -/
theorem no_background_rotation (n : Nat) (tf : String) :
    tickAction n tf = PollKind.price ∨
    tickAction n tf = PollKind.candles tf := by
  by_cases h : n % 2 = 0
  · right; simp [tickAction, h]
  · left; simp [tickAction, h]

/-! ## Failed polls leave the cache untouched (C6) -/

/-- C6: a poll — price or candles — whose fetch is denied by the quota
tracker, rejected upstream with an error status, or failed in transport
leaves every cache entry and every last-updated timestamp unchanged and
broadcasts no event; only the quota window itself may change.  The model
has no retry path: the failed poll simply returns. -/
theorem failed_poll_frame (st : ServerState) (now : Nat) (interval : String)
    (rp : NetResponse PriceData) (rc : NetResponse CandleData)
    (hp : (canCallAPI st.apiCalls now).2 = false ∨
      ∀ d, rp ≠ NetResponse.ok d)
    (hc : (canCallAPI st.apiCalls now).2 = false ∨
      ∀ d, rc ≠ NetResponse.ok d) :
    ((pollPrice st now rp).1.price = st.price ∧
     (pollPrice st now rp).1.quote = st.quote ∧
     (pollPrice st now rp).1.candles = st.candles ∧
     (pollPrice st now rp).1.lastPrice = st.lastPrice ∧
     (pollPrice st now rp).1.lastQuote = st.lastQuote ∧
     (pollPrice st now rp).1.lastCandles = st.lastCandles ∧
     (pollPrice st now rp).1.lastUpdate = st.lastUpdate ∧
     (pollPrice st now rp).2 = []) ∧
    ((pollCandles st now interval rc).1.price = st.price ∧
     (pollCandles st now interval rc).1.quote = st.quote ∧
     (pollCandles st now interval rc).1.candles = st.candles ∧
     (pollCandles st now interval rc).1.lastPrice = st.lastPrice ∧
     (pollCandles st now interval rc).1.lastQuote = st.lastQuote ∧
     (pollCandles st now interval rc).1.lastCandles = st.lastCandles ∧
     (pollCandles st now interval rc).1.lastUpdate = st.lastUpdate ∧
     (pollCandles st now interval rc).2 = []) := by
  constructor
  · cases hB : (canCallAPI st.apiCalls now).2 with
    | false => cases rp <;> simp [pollPrice, safeFetch, hB]
    | true =>
      rcases hp with h | h
      · rw [hB] at h; cases h
      · cases rp with
        | transportFail m => simp [pollPrice, safeFetch, hB]
        | errorStatus m => simp [pollPrice, safeFetch, hB]
        | ok d => exact absurd rfl (h d)
  · cases hB : (canCallAPI st.apiCalls now).2 with
    | false => cases rc <;> simp [pollCandles, safeFetch, hB]
    | true =>
      rcases hc with h | h
      · rw [hB] at h; cases h
      · cases rc with
        | transportFail m => simp [pollCandles, safeFetch, hB]
        | errorStatus m => simp [pollCandles, safeFetch, hB]
        | ok d => exact absurd rfl (h d)

/-- Witness for C6: an upstream-rejected price poll and a
transport-failed candle poll against the initial state change nothing
and broadcast nothing. -/
theorem failed_poll_frame_witness :
    ((pollPrice initState 0 (NetResponse.errorStatus "bad")).1.price
        = initState.price ∧
     (pollPrice initState 0 (NetResponse.errorStatus "bad")).1.quote
        = initState.quote ∧
     (pollPrice initState 0 (NetResponse.errorStatus "bad")).1.candles
        = initState.candles ∧
     (pollPrice initState 0 (NetResponse.errorStatus "bad")).1.lastPrice
        = initState.lastPrice ∧
     (pollPrice initState 0 (NetResponse.errorStatus "bad")).1.lastQuote
        = initState.lastQuote ∧
     (pollPrice initState 0 (NetResponse.errorStatus "bad")).1.lastCandles
        = initState.lastCandles ∧
     (pollPrice initState 0 (NetResponse.errorStatus "bad")).1.lastUpdate
        = initState.lastUpdate ∧
     (pollPrice initState 0 (NetResponse.errorStatus "bad")).2 = []) ∧
    ((pollCandles initState 0 "1min"
        (NetResponse.transportFail "timeout")).1.price = initState.price ∧
     (pollCandles initState 0 "1min"
        (NetResponse.transportFail "timeout")).1.quote = initState.quote ∧
     (pollCandles initState 0 "1min"
        (NetResponse.transportFail "timeout")).1.candles
        = initState.candles ∧
     (pollCandles initState 0 "1min"
        (NetResponse.transportFail "timeout")).1.lastPrice
        = initState.lastPrice ∧
     (pollCandles initState 0 "1min"
        (NetResponse.transportFail "timeout")).1.lastQuote
        = initState.lastQuote ∧
     (pollCandles initState 0 "1min"
        (NetResponse.transportFail "timeout")).1.lastCandles
        = initState.lastCandles ∧
     (pollCandles initState 0 "1min"
        (NetResponse.transportFail "timeout")).1.lastUpdate
        = initState.lastUpdate ∧
     (pollCandles initState 0 "1min"
        (NetResponse.transportFail "timeout")).2 = []) :=
  failed_poll_frame initState 0 "1min" (NetResponse.errorStatus "bad")
    (NetResponse.transportFail "timeout")
    (Or.inr fun _ h => NetResponse.noConfusion h)
    (Or.inr fun _ h => NetResponse.noConfusion h)

/-! ## Timeframe switch (C7, C10) -/

lemma pollCandles_active (st : ServerState) (now : Nat) (i : String)
    (resp : NetResponse CandleData) :
    (pollCandles st now i resp).1.activeTimeframe = st.activeTimeframe := by
  rcases resp with m | m | ⟨vals⟩
  · cases hB : (canCallAPI st.apiCalls now).2 <;>
      simp [pollCandles, safeFetch, hB]
  · cases hB : (canCallAPI st.apiCalls now).2 <;>
      simp [pollCandles, safeFetch, hB]
  · rcases vals with _ | vlist
    · cases hB : (canCallAPI st.apiCalls now).2 <;>
        simp [pollCandles, safeFetch, hB]
    · rcases vlist with _ | ⟨v, vs⟩ <;>
        cases hB : (canCallAPI st.apiCalls now).2 <;>
        simp [pollCandles, safeFetch, hB]

/-- C7: a GET /api/candles switch to a timeframe whose cached candles
are missing or older than the 15 s freshness threshold issues exactly
one immediate out-of-band candle poll for that timeframe — the handler's
outcome is exactly that of `pollCandles`, so the poll passes through
`safeFetch` and the quota tracker like any other — and the switch to the
new active timeframe takes effect immediately. -/
theorem switch_triggers_one_poll (st : ServerState) (now : Nat)
    (tfQuery : Option String) (resp : NetResponse CandleData)
    (hdiff : tfQuery.getD "1min" ≠ st.activeTimeframe)
    (hstale : (st.candles (tfQuery.getD "1min")).isNone = true ∨
      now - st.lastCandles (tfQuery.getD "1min") > 15000) :
    (candlesGet st now tfQuery resp).2.2 = 1 ∧
    (candlesGet st now tfQuery resp).1 =
      (pollCandles { st with activeTimeframe := tfQuery.getD "1min" } now
        (tfQuery.getD "1min") resp).1 ∧
    (candlesGet st now tfQuery resp).2.1 =
      (pollCandles { st with activeTimeframe := tfQuery.getD "1min" } now
        (tfQuery.getD "1min") resp).2 ∧
    (candlesGet st now tfQuery resp).1.activeTimeframe
      = tfQuery.getD "1min" := by
  have hcond : ((({ st with activeTimeframe := tfQuery.getD "1min"
        }).candles (tfQuery.getD "1min")).isNone ||
      decide (now - ({ st with activeTimeframe := tfQuery.getD "1min"
        }).lastCandles (tfQuery.getD "1min") > 15000)) = true := by
    rcases hstale with h | h
    · show ((st.candles (tfQuery.getD "1min")).isNone || _) = true
      simp [h]
    · show ((st.candles (tfQuery.getD "1min")).isNone ||
        decide (now - st.lastCandles (tfQuery.getD "1min") > 15000)) = true
      simp [h]
  refine ⟨?_, ?_, ?_, ?_⟩
  · simp only [candlesGet]
    rw [if_neg hdiff, if_pos hcond]
  · simp only [candlesGet]
    rw [if_neg hdiff, if_pos hcond]
  · simp only [candlesGet]
    rw [if_neg hdiff, if_pos hcond]
  · simp only [candlesGet]
    rw [if_neg hdiff, if_pos hcond, pollCandles_active]

/-- Witness for C7: switching from `"1min"` to the uncached `"5min"`
with a transport-failing poll still counts exactly one issued poll and
switches the active timeframe. -/
theorem switch_triggers_one_poll_witness :
    (candlesGet initState 100 (some "5min")
        (NetResponse.transportFail "t")).2.2 = 1 ∧
    (candlesGet initState 100 (some "5min")
        (NetResponse.transportFail "t")).1 =
      (pollCandles { initState with activeTimeframe := "5min" } 100 "5min"
        (NetResponse.transportFail "t")).1 ∧
    (candlesGet initState 100 (some "5min")
        (NetResponse.transportFail "t")).2.1 =
      (pollCandles { initState with activeTimeframe := "5min" } 100 "5min"
        (NetResponse.transportFail "t")).2 ∧
    (candlesGet initState 100 (some "5min")
        (NetResponse.transportFail "t")).1.activeTimeframe = "5min" :=
  switch_triggers_one_poll initState 100 (some "5min")
    (NetResponse.transportFail "t") (by decide) (Or.inl rfl)

/-- A state whose `"5min"` candle entry is cached and fresh at time 100,
used to witness the fresh-entry branch of the switch handler. -/
def stFresh : ServerState :=
  { initState with
      candles := fun k => if k = "5min" then some ⟨some []⟩ else none,
      lastCandles := fun k => if k = "5min" then 100 else 0 }

/-- C10: whenever the requested interval differs from the active
timeframe, the GET /api/candles handler sets the process-wide active
timeframe to the requested value for every network outcome and cache
freshness — and when the cached entry is present and fresh it issues no
poll at all, yet the switch still happens. -/
theorem candles_get_switches_unconditionally (st : ServerState)
    (now : Nat) (tfQuery : Option String) (resp : NetResponse CandleData)
    (hdiff : tfQuery.getD "1min" ≠ st.activeTimeframe) :
    (candlesGet st now tfQuery resp).1.activeTimeframe
      = tfQuery.getD "1min" ∧
    ((st.candles (tfQuery.getD "1min")).isSome = true →
      now - st.lastCandles (tfQuery.getD "1min") ≤ 15000 →
      (candlesGet st now tfQuery resp).2.2 = 0) := by
  constructor
  · simp only [candlesGet]
    rw [if_neg hdiff]
    by_cases hcond : ((({ st with activeTimeframe := tfQuery.getD "1min"
          }).candles (tfQuery.getD "1min")).isNone ||
        decide (now - ({ st with activeTimeframe := tfQuery.getD "1min"
          }).lastCandles (tfQuery.getD "1min") > 15000)) = true
    · rw [if_pos hcond, pollCandles_active]
    · rw [if_neg hcond]
  · intro h1 h2
    have hn : (st.candles (tfQuery.getD "1min")).isNone = false :=
      (Option.isNone_eq_false_iff _).mpr h1
    have hd : decide (now - st.lastCandles (tfQuery.getD "1min")
        > 15000) = false := by
      apply decide_eq_false
      omega
    simp only [candlesGet]
    rw [if_neg hdiff, if_neg (by
      show ¬(((st.candles (tfQuery.getD "1min")).isNone ||
        decide (now - st.lastCandles (tfQuery.getD "1min") > 15000)) = true)
      rw [hn, hd]
      simp)]

/-- Witness for C10: requesting fresh, cached `"5min"` candles while
`"1min"` is active switches the active timeframe and issues no poll. -/
theorem candles_get_switches_unconditionally_witness :
    (candlesGet stFresh 100 (some "5min")
        (NetResponse.transportFail "x")).1.activeTimeframe = "5min" ∧
    (candlesGet stFresh 100 (some "5min")
        (NetResponse.transportFail "x")).2.2 = 0 :=
  ⟨(candles_get_switches_unconditionally stFresh 100 (some "5min")
      (NetResponse.transportFail "x") (by decide)).1,
   (candles_get_switches_unconditionally stFresh 100 (some "5min")
      (NetResponse.transportFail "x") (by decide)).2 (by decide) (by decide)⟩

/-! ## Subscriber bootstrap (C8) -/

/-- C8: a subscriber connecting while the price, the quote and the
active timeframe's candles are all cached receives a bootstrap snapshot
of exactly those three messages — one per data kind, in that order —
strictly before any later live event. -/
theorem bootstrap_before_live (st : ServerState) (p : PriceData)
    (q : Quote) (c : CandleData) (laterEvents : List Event)
    (hp : st.price = some p) (hq : st.quote = some q)
    (hc : st.candles st.activeTimeframe = some c) :
    subscriberStream st laterEvents =
      Event.price p st.lastPrice ::
      Event.quote q st.lastQuote ::
      Event.candles st.activeTimeframe c
        (st.lastCandles st.activeTimeframe) :: laterEvents := by
  simp [subscriberStream, bootstrapMessages, hp, hq, hc]

/-- A fully cached state used to witness the bootstrap snapshot. -/
def stFull : ServerState :=
  { initState with
      price := some ⟨some "0.6"⟩,
      quote := some ⟨5, 1, 3⟩,
      candles := fun k => if k = "1min" then some ⟨some []⟩ else none,
      lastPrice := 1,
      lastQuote := 2,
      lastCandles := fun k => if k = "1min" then 3 else 0 }

/-- Witness for C8: against `stFull` the subscriber sees price, quote
and candles messages before the single later live event. -/
theorem bootstrap_before_live_witness :
    subscriberStream stFull [Event.price ⟨some "0.7"⟩ 9] =
      Event.price ⟨some "0.6"⟩ 1 ::
      Event.quote ⟨5, 1, 3⟩ 2 ::
      Event.candles "1min" ⟨some []⟩ 3 ::
      [Event.price ⟨some "0.7"⟩ 9] :=
  bootstrap_before_live stFull ⟨some "0.6"⟩ ⟨5, 1, 3⟩ ⟨some []⟩
    [Event.price ⟨some "0.7"⟩ 9] rfl rfl rfl

/-! ## Fan-out pruning (C9) -/

lemma broadcast_keep_ok : ∀ (l : List Client) (x : Client),
    x ∈ (broadcast l).1 → x.writeOk = true := by
  intro l
  induction l with
  | nil => intro x hx; simp [broadcast] at hx
  | cons c cs ih =>
    intro x hx
    by_cases h : c.writeOk = true <;> simp only [broadcast, h] at hx
    · simp only [if_true] at hx
      rcases List.mem_cons.mp hx with rfl | hx2
      · exact h
      · exact ih x hx2
    · simp only [if_false, Bool.false_eq_true] at hx
      exact ih x hx

lemma broadcast_recv_ok : ∀ (l : List Client) (x : Client),
    x ∈ (broadcast l).2 → x.writeOk = true := by
  intro l
  induction l with
  | nil => intro x hx; simp [broadcast] at hx
  | cons c cs ih =>
    intro x hx
    by_cases h : c.writeOk = true <;> simp only [broadcast, h] at hx
    · simp only [if_true] at hx
      rcases List.mem_cons.mp hx with rfl | hx2
      · exact h
      · exact ih x hx2
    · simp only [if_false, Bool.false_eq_true] at hx
      exact ih x hx

/-- C9 counterexample: a client whose keep-alive write fails is NOT
removed from the subscriber set — the heartbeat callback only clears its
own timer (`clearInterval(hb)`), leaving `sseClients` untouched. -/
theorem keepalive_no_removal_cex :
    (hbTick [⟨0, false⟩] ⟨0, false⟩ true).1 = [⟨0, false⟩] ∧
    (hbTick [⟨0, false⟩] ⟨0, false⟩ true).2 = false ∧
    (⟨0, false⟩ : Client) ∈ (hbTick [⟨0, false⟩] ⟨0, false⟩ true).1 := by
  decide

/-- C9 amended: a subscriber whose broadcast write fails is removed from
the set within that publish cycle, receives nothing from it, and
receives nothing from the following publish either; a failed keep-alive
write, by contrast, only cancels that subscriber's heartbeat timer and
never changes the subscriber set. -/
theorem failed_send_pruned (clients : List Client) (c : Client)
    (_hmem : c ∈ clients) (hfail : c.writeOk = false) :
    c ∉ (broadcast clients).1 ∧
    c ∉ (broadcast clients).2 ∧
    c ∉ (broadcast (broadcast clients).1).2 ∧
    ∀ hbActive : Bool, (hbTick clients c hbActive).1 = clients := by
  refine ⟨?_, ?_, ?_, ?_⟩
  · intro hx
    have h := broadcast_keep_ok clients c hx
    rw [hfail] at h
    cases h
  · intro hx
    have h := broadcast_recv_ok clients c hx
    rw [hfail] at h
    cases h
  · intro hx
    have h := broadcast_recv_ok (broadcast clients).1 c hx
    rw [hfail] at h
    cases h
  · intro b
    simp [hbTick, hfail]

/-- Witness for the amended C9: the failing client `⟨0, false⟩` is
pruned by `broadcast` and untouched by its heartbeat. -/
theorem failed_send_pruned_witness :
    (⟨0, false⟩ : Client) ∉ (broadcast [⟨0, false⟩, ⟨1, true⟩]).1 ∧
    (⟨0, false⟩ : Client) ∉ (broadcast [⟨0, false⟩, ⟨1, true⟩]).2 ∧
    (⟨0, false⟩ : Client) ∉
      (broadcast (broadcast [⟨0, false⟩, ⟨1, true⟩]).1).2 ∧
    ∀ hbActive : Bool,
      (hbTick [⟨0, false⟩, ⟨1, true⟩] ⟨0, false⟩ hbActive).1
        = [⟨0, false⟩, ⟨1, true⟩] :=
  failed_send_pruned [⟨0, false⟩, ⟨1, true⟩] ⟨0, false⟩ (by decide) rfl

end AudChf
